import Mathlib

/-!
Shallow embedding of the configuration-merging action:

* `src/src/parameter-merger.js` — `ParameterMerger` (`mergeParameters`,
  `validateParameterObject`, `validateTagsObject`);
* `src/src/configuration-reader.js` — `ConfigurationReader`
  (`readDefaultParameters`, `readDefaultTags`) and the entry point `run`
  (its tag-merge step is `runMergeTags` below);
* the `StackNameGenerator` source (`generateStackName`,
  `getCurrentBranchName`, `sanitizeBranchName`);
* `src/src/ci-build-id-generator.js.js` — `CiBuildIdGenerator`
  (`generateRandomId`, `validateIdFormat`).

JavaScript objects are modelled as association lists with value type
`JSValue`; JS `null` and `undefined` are both `JSValue.null` (the code
treats them identically at every modelled site).  JS numbers are modelled
as `Int` (no claim depends on non-integer number formatting).  The file
system and `JSON.parse` are external to the repository and are modelled as
oracles (`FsEntry`, `ParsedContent`), as is the `git` process invocation
(`GitResult`) and `Math.random` (a stream of already-floored indices,
which is exactly the information `Math.floor(Math.random()*26)` yields).
String lengths use code points, which agree with JS `.length` on the
ASCII strings involved; `trim` is modelled on the four common whitespace
characters.
-/

/-- Dynamic JSON value, the type of parameter and tag map entries. -/
inductive JSValue : Type where
  | str (s : String)
  | num (n : Int)
  | bool (b : Bool)
  | null
  | obj (fields : List (String × JSValue))
  | arr (elems : List JSValue)

/-- JS `typeof` restricted to the values of `JSValue` (`typeof null` is
the string "object", as is `typeof` of any array). -/
def jsTypeof : JSValue → String
  | .str _ => "string"
  | .num _ => "number"
  | .bool _ => "boolean"
  | .null => "object"
  | .obj _ => "object"
  | .arr _ => "object"

/-- The test `value && typeof value === 'object' && !Array.isArray(value)`:
a plain (non-array, non-null) object. -/
def isPlainObject : JSValue → Bool
  | .obj _ => true
  | _ => false

/-- String escaping of `JSON.stringify` for the characters the model
covers (quote, backslash, newline, tab, carriage return; other control
characters are outside the model). -/
def jsEscape (s : String) : String :=
  String.mk (s.data.foldr (fun c acc =>
    if c = '"' then '\\' :: '"' :: acc
    else if c = '\\' then '\\' :: '\\' :: acc
    else if c = '\n' then '\\' :: 'n' :: acc
    else if c = '\t' then '\\' :: 't' :: acc
    else if c = '\r' then '\\' :: 'r' :: acc
    else c :: acc) [])

mutual

/-- JS `JSON.stringify` on `JSValue` (no spacing argument). -/
def jsonStringify : JSValue → String
  | .str s => "\"" ++ jsEscape s ++ "\""
  | .num n => toString n
  | .bool b => if b then "true" else "false"
  | .null => "null"
  | .obj fields => "\x7b" ++ jsonStringifyFields fields ++ "\x7d"
  | .arr elems => "[" ++ jsonStringifyElems elems ++ "]"

/-- Comma-joined `"key":value` renderings of an object's fields. -/
def jsonStringifyFields : List (String × JSValue) → String
  | [] => ""
  | [(k, v)] => "\"" ++ jsEscape k ++ "\":" ++ jsonStringify v
  | (k, v) :: rest =>
      "\"" ++ jsEscape k ++ "\":" ++ jsonStringify v ++ "," ++ jsonStringifyFields rest

/-- Comma-joined renderings of an array's elements. -/
def jsonStringifyElems : List JSValue → String
  | [] => ""
  | [v] => jsonStringify v
  | v :: rest => jsonStringify v ++ "," ++ jsonStringifyElems rest

end

/-- The string a parameter or tag value is measured by:
`typeof value === 'object' ? JSON.stringify(value) : String(value)`. -/
def stringifyValue : JSValue → String
  | .str s => s
  | .num n => toString n
  | .bool b => if b then "true" else "false"
  | v => jsonStringify v

/-- One of the whitespace characters JS `String.prototype.trim` removes
(the model covers space, tab, newline, carriage return). -/
def isJsWhitespace (c : Char) : Bool :=
  decide (c = ' ' ∨ c = '\t' ∨ c = '\n' ∨ c = '\r')

/-- JS `String.prototype.trim`. -/
def jsTrim (s : String) : String :=
  String.mk (((s.data.dropWhile isJsWhitespace).reverse.dropWhile isJsWhitespace).reverse)

/-- An ASCII letter, the classes `[a-zA-Z]`. -/
def isAsciiLetter (c : Char) : Bool :=
  decide ((65 ≤ c.toNat ∧ c.toNat ≤ 90) ∨ (97 ≤ c.toNat ∧ c.toNat ≤ 122))

/-- An ASCII digit, the class `[0-9]`. -/
def isAsciiDigit (c : Char) : Bool :=
  decide (48 ≤ c.toNat ∧ c.toNat ≤ 57)

/-- The parameter-name regex `^[a-zA-Z][a-zA-Z0-9]*$` of
`validateParameterObject`. -/
def isParamNameOk (k : String) : Bool :=
  match k.data with
  | [] => false
  | c :: rest => isAsciiLetter c && rest.all (fun d => isAsciiLetter d || isAsciiDigit d)

/-- First match lookup in an association list, the reading of `obj[key]`
on the modelled objects. -/
def lookupKey : List (String × JSValue) → String → Option JSValue
  | [], _ => none
  | (k, v) :: rest, key => if k = key then some v else lookupKey rest key

/-- The base entries of `\x7b...base, ...ovr\x7d`: each of `base`'s entries with
its value replaced by `ovr`'s when `ovr` has the key. -/
def overrideWith (ovr base : List (String × JSValue)) : List (String × JSValue) :=
  base.map fun p => (p.1, (lookupKey ovr p.1).getD p.2)

/-- JS object spread `\x7b...base, ...ovr\x7d` on association lists: base entries
with override values, then the override-only entries in override order. -/
def spreadMerge (base ovr : List (String × JSValue)) : List (String × JSValue) :=
  overrideWith ovr base ++ ovr.filter fun p => (lookupKey base p.1).isNone

/-- Per-entry checks of `validateParameterObject`, in source order: name
non-empty after trim, name length at most 255, name matches
`^[a-zA-Z][a-zA-Z0-9]*$`, value neither null nor undefined, stringified
value length at most 4096. -/
def validateParameterEntries (ty : String) : List (String × JSValue) → Except String Unit
  | [] => .ok ()
  | (k, v) :: rest =>
      if jsTrim k = "" then
        .error ("Invalid " ++ ty ++ " parameter name: '" ++ k ++
          "'. Parameter names must be non-empty strings.")
      else if 255 < k.length then
        .error (ty ++ " parameter name '" ++ k ++ "' is too long (" ++ toString k.length ++
          " characters). Maximum length is 255 characters.")
      else if isParamNameOk k = false then
        .error (ty ++ " parameter name '" ++ k ++
          "' contains invalid characters. Parameter names must start with a letter and contain only alphanumeric characters.")
      else
        match v with
        | .null =>
            .error (ty ++ " parameter '" ++ k ++ "' has null or undefined value")
        | v =>
            if 4096 < (stringifyValue v).length then
              .error (ty ++ " parameter '" ++ k ++ "' value is too long (" ++
                toString (stringifyValue v).length ++ " characters). Maximum length is 4096 characters.")
            else validateParameterEntries ty rest

/-- `ParameterMerger.validateParameterObject(params, type)`
(src/src/parameter-merger.js lines 96-137). -/
def validateParameterObject (params : JSValue) (ty : String) : Except String Unit :=
  match params with
  | .obj fields =>
      if 200 < fields.length then
        .error ("Too many " ++ ty ++ " parameters (" ++ toString fields.length ++
          "). Maximum supported is 200 parameters.")
      else validateParameterEntries ty fields
  | _ => .error (ty ++ " parameters must be a valid object")

/-- Per-entry checks of `validateTagsObject`, in source order: name
non-empty after trim, name length at most 128 (no character-class rule),
value neither null nor undefined, stringified value length at most 256. -/
def validateTagsEntries (ty : String) : List (String × JSValue) → Except String Unit
  | [] => .ok ()
  | (k, v) :: rest =>
      if jsTrim k = "" then
        .error ("Invalid " ++ ty ++ " tag name: '" ++ k ++
          "'. Tag names must be non-empty strings.")
      else if 128 < k.length then
        .error (ty ++ " tag name '" ++ k ++ "' is too long (" ++ toString k.length ++
          " characters). Maximum length is 128 characters.")
      else
        match v with
        | .null =>
            .error (ty ++ " tag '" ++ k ++ "' has null or undefined value")
        | v =>
            if 256 < (stringifyValue v).length then
              .error (ty ++ " tag '" ++ k ++ "' value is too long (" ++
                toString (stringifyValue v).length ++ " characters). Maximum length is 256 characters.")
            else validateTagsEntries ty rest

/-- `ParameterMerger.validateTagsObject(tags, type)` (the merger module,
lines 140-176 of the full file): at most 50 tags, free-form non-empty
names of at most 128 characters, non-null values of at most 256
stringified characters. -/
def validateTagsObject (tags : JSValue) (ty : String) : Except String Unit :=
  match tags with
  | .obj fields =>
      if 50 < fields.length then
        .error ("Too many " ++ ty ++ " tags (" ++ toString fields.length ++
          "). Maximum supported is 50 tags.")
      else validateTagsEntries ty fields
  | _ => .error (ty ++ " tags must be a valid object")

/-- `ParameterMerger.mergeParameters(defaultParams, envParams)`
(src/src/parameter-merger.js lines 14-44).  When `envParams` is
null/undefined the function returns a copy of `defaultParams` without
running `validateParameterObject`; when it is a plain object both maps are
validated (errors wrapped with a "Failed to merge parameters: " prefix)
and the spread merge is returned. -/
def mergeParameters (defaultParams envParams : JSValue) : Except String JSValue :=
  match defaultParams with
  | .obj defFields =>
      match envParams with
      | .null => .ok (.obj defFields)
      | .obj envFields =>
          match validateParameterObject (.obj defFields) "default" with
          | .error e => .error ("Failed to merge parameters: " ++ e)
          | .ok _ =>
              match validateParameterObject (.obj envFields) "environment" with
              | .error e => .error ("Failed to merge parameters: " ++ e)
              | .ok _ => .ok (.obj (spreadMerge defFields envFields))
      | _ => .error "Environment parameters must be a valid object (not an array) or null"
  | _ => .error "Default parameters must be a valid object (not an array)"

/-- The tag-merge step of `run` (configuration-reader.js entry point,
`const mergedTags = parameterMerger.mergeParameters(defaultTags, envTags)`):
the orchestrator merges tag maps through `mergeParameters`. -/
def runMergeTags (defaultTags envTags : JSValue) : Except String JSValue :=
  mergeParameters defaultTags envTags

/-- Outcome of reading and JSON-parsing one configuration file; the file
system and `JSON.parse` are external, so their joint result is an oracle.
Permission errors are outside the model. -/
inductive ParsedContent : Type where
  | empty
  | invalid (diag : String)
  | value (v : JSValue)

/-- State of a configuration path on disk. -/
inductive FsEntry : Type where
  | missing
  | directory
  | jsonFile (content : ParsedContent)

/-- `ConfigurationReader.readDefaultParameters(folderPath)`
(src/src/configuration-reader.js lines 78-129): a missing
`params/default.json` is a fatal error. -/
def readDefaultParameters (folderPath : String) (entry : FsEntry) : Except String JSValue :=
  if folderPath = "" then .error "Folder path must be a valid string"
  else
    let p := folderPath ++ "/params/default.json"
    match entry with
    | .missing =>
        .error ("Default parameters file not found: " ++ p ++
          ". Please ensure the file exists in the params subdirectory.")
    | .directory =>
        .error ("Failed to read default parameters from " ++ p ++
          ": Default parameters path exists but is not a file: " ++ p)
    | .jsonFile .empty =>
        .error ("Default parameters file is empty: " ++ p ++
          ". Expected at least an empty JSON object \x7b\x7d.")
    | .jsonFile (.invalid diag) =>
        .error ("Invalid JSON format in default.json at " ++ p ++ ": " ++ diag ++
          ". Please check the JSON syntax.")
    | .jsonFile (.value v) =>
        match v with
        | .obj fields => .ok (.obj fields)
        | _ => .error ("Default parameters must be a JSON object, got " ++ jsTypeof v)

/-- `ConfigurationReader.readDefaultTags(folderPath)`
(src/src/configuration-reader.js lines 202-254): identical shape to
`readDefaultParameters` except that a missing `tags/default.json` yields
the empty object (the ENOENT branch returns `\x7b\x7d`). -/
def readDefaultTags (folderPath : String) (entry : FsEntry) : Except String JSValue :=
  if folderPath = "" then .error "Folder path must be a valid string"
  else
    let p := folderPath ++ "/tags/default.json"
    match entry with
    | .missing => .ok (.obj [])
    | .directory =>
        .error ("Failed to read default tags from " ++ p ++
          ": Default tags path exists but is not a file: " ++ p)
    | .jsonFile .empty =>
        .error ("Default tags file is empty: " ++ p ++
          ". Expected at least an empty JSON object \x7b\x7d.")
    | .jsonFile (.invalid diag) =>
        .error ("Invalid JSON format in default.json at " ++ p ++ ": " ++ diag ++
          ". Please check the JSON syntax.")
    | .jsonFile (.value v) =>
        match v with
        | .obj fields => .ok (.obj fields)
        | _ => .error ("Default tags must be a JSON object, got " ++ jsTypeof v)

/-- The stack-name character class `[a-zA-Z0-9-]`. -/
def isStackNameChar (c : Char) : Bool :=
  isAsciiLetter c || isAsciiDigit c || decide (c = '-')

/-- The test `validNameRegex.test(s)` for `^[a-zA-Z0-9-]+$`. -/
def validNameTest (s : String) : Bool :=
  !s.isEmpty && s.data.all isStackNameChar

/-- Step 1 of `sanitizeBranchName`: `.replace(/[^a-zA-Z0-9-]/g, '-')`. -/
def replaceInvalidChars (l : List Char) : List Char :=
  l.map fun c => if isStackNameChar c then c else '-'

/-- Step 2 of `sanitizeBranchName`: the replace that collapses each
maximal run of hyphens to a single hyphen. -/
def collapseHyphens : List Char → List Char
  | [] => []
  | [c] => [c]
  | a :: b :: rest =>
      if a = '-' ∧ b = '-' then collapseHyphens (b :: rest)
      else a :: collapseHyphens (b :: rest)

/-- Removal of the trailing hyphen run, the `-+$` half of step 3. -/
def dropTrailingHyphens : List Char → List Char
  | [] => []
  | c :: rest =>
      match dropTrailingHyphens rest with
      | [] => if c = '-' then [] else [c]
      | r => c :: r

/-- Step 3 of `sanitizeBranchName`: `.replace(/^-+|-+$/g, '')`. -/
def stripEdgeHyphens (l : List Char) : List Char :=
  dropTrailingHyphens (l.dropWhile fun c => c = '-')

/-- Step 4 of `sanitizeBranchName`: `.toLowerCase()`.  Every character
reaching this step is ASCII (steps 1-3 leave only `[a-zA-Z0-9-]`), where
JS `toLowerCase` agrees with `Char.toLower`. -/
def lowerChars (l : List Char) : List Char :=
  l.map Char.toLower

/-- The four-step transform of `sanitizeBranchName` on a string. -/
def sanitizeCore (s : String) : String :=
  String.mk (lowerChars (stripEdgeHyphens (collapseHyphens (replaceInvalidChars s.data))))

/-- `StackNameGenerator.sanitizeBranchName(branchName)`: throws on a
falsy (empty) input, otherwise applies the four-step transform. -/
def sanitizeBranchName (branchName : String) : Except String String :=
  if branchName = "" then .error "Branch name cannot be empty"
  else .ok (sanitizeCore branchName)

/-- Outcome of the external `git rev-parse --abbrev-ref HEAD` process
call: its stdout on success, or the error classes distinguished by
`getCurrentBranchName`. -/
inductive GitResult : Type where
  | output (stdout : String)
  | cmdNotFound
  | timedOut
  | exitStatus128
  | exitStatus129
  | otherFailure (msg : String)

/-- `StackNameGenerator.getCurrentBranchName()`: trims the git output,
rejects empty and the sentinel HEAD, rejects names over 100 characters,
and maps each process-failure class to its diagnostic message. -/
def getCurrentBranchName (g : GitResult) : Except String String :=
  match g with
  | .output stdout =>
      let branchName := jsTrim stdout
      if branchName = "" ∨ branchName = "HEAD" then
        .error "Unable to determine current branch name. You may be in a detached HEAD state or the repository may not have any commits."
      else if 100 < branchName.length then
        .error ("Branch name is too long (" ++ toString branchName.length ++
          " characters). Maximum supported length is 100 characters.")
      else .ok branchName
  | .cmdNotFound =>
      .error "Git command not found. Please ensure Git is installed and available in PATH."
  | .timedOut =>
      .error "Git command timed out. The repository may be corrupted or inaccessible."
  | .exitStatus128 =>
      .error "Not a Git repository or Git repository is corrupted. Please ensure you are running this action in a valid Git repository."
  | .exitStatus129 =>
      .error "Invalid Git command or Git version is too old. Please ensure you have a recent version of Git installed."
  | .otherFailure m =>
      .error ("Failed to determine current branch name: " ++ m ++
        ". Please ensure you are in a valid Git repository with at least one commit.")

/-- `StackNameGenerator.generateStackName(project, stackPrefix, isCiBuild,
environment)`; the git call is the oracle `g`.  The source's
`stackPrefix` argument is named `stackPfx` here.  The non-string and
non-boolean argument cases of the source are outside this model (the
arguments are typed). -/
def generateStackName (project stackPfx : String) (isCiBuild : Bool)
    (environment : String) (g : GitResult) : Except String String :=
  if jsTrim project = "" then
    .error "Project name is required and must be a non-empty string"
  else if jsTrim stackPfx = "" then
    .error "Stack prefix is required and must be a non-empty string"
  else if validNameTest project = false then
    .error "Project name contains invalid characters. Only alphanumeric characters and hyphens are allowed."
  else if validNameTest stackPfx = false then
    .error "Stack prefix contains invalid characters. Only alphanumeric characters and hyphens are allowed."
  else if 50 < project.length then
    .error ("Project name is too long (" ++ toString project.length ++
      " characters). Maximum length is 50 characters.")
  else if 50 < stackPfx.length then
    .error ("Stack prefix is too long (" ++ toString stackPfx.length ++
      " characters). Maximum length is 50 characters.")
  else
    match
      (match isCiBuild with
      | true =>
        match getCurrentBranchName g with
        | .error e => .error e
        | .ok branchName =>
            match sanitizeBranchName branchName with
            | .error e => .error e
            | .ok sanitized =>
                if sanitized = "" then
                  .error "Branch name resulted in empty string after sanitization. Please use a branch name with alphanumeric characters."
                else .ok (project ++ "-" ++ stackPfx ++ "-" ++ sanitized)
      | false =>
        if jsTrim environment = "" then
          .error "Environment is required for non-CI build stack name generation and must be a non-empty string"
        else if validNameTest environment = false then
          .error "Environment name contains invalid characters. Only alphanumeric characters and hyphens are allowed."
        else if 50 < environment.length then
          .error ("Environment name is too long (" ++ toString environment.length ++
            " characters). Maximum length is 50 characters.")
        else .ok (project ++ "-" ++ stackPfx ++ "-" ++ environment) : Except String String)
    with
    | .error e => .error e
    | .ok stackName =>
        if 128 < stackName.length then
          .error ("Generated stack name is too long (" ++ toString stackName.length ++
            " characters). CloudFormation stack names must be 128 characters or less.")
        else .ok stackName

/-- The 26-letter alphabet of `CiBuildIdGenerator.generateRandomId`. -/
def idAlphabet : List Char := "abcdefghijklmnopqrstuvwxyz".data

/-- `CiBuildIdGenerator.validateIdFormat(id)`: length in [6,10] and the
regex `^[a-z]+$`. -/
def validateIdFormat (id : String) : Bool :=
  if id.length < 6 ∨ 10 < id.length then false
  else id.data.all (fun c => decide (97 ≤ c.toNat ∧ c.toNat ≤ 122)) && !id.isEmpty

/-- The dynamically typed `length` argument of `generateRandomId`: an
integer number, a non-integer number, or a non-number of the given
`typeof` (for the two rejected classes only the error is observable, so
the numeric value is not carried). -/
inductive JsLengthArg : Type where
  | intNum (n : Int)
  | nonIntNum
  | nonNum (ty : String)

/-- A character of the sanitized-output class `[a-z0-9-]`. -/
def isSanitizedChar (c : Char) : Bool :=
  decide ((97 ≤ c.toNat ∧ c.toNat ≤ 122) ∨ (48 ≤ c.toNat ∧ c.toNat ≤ 57) ∨ c = '-')

/-- No two adjacent hyphens anywhere in the character list. -/
def noDoubleHyphen : List Char → Bool
  | [] => true
  | [_] => true
  | a :: b :: rest => !(decide (a = '-' ∧ b = '-')) && noDoubleHyphen (b :: rest)

/-- A valid name component for the identifier resolver: it passes the
`^[a-zA-Z0-9-]+$` test and is at most 50 characters. -/
def validComponent (s : String) : Prop :=
  validNameTest s = true ∧ s.length ≤ 50

/-- `CiBuildIdGenerator.generateRandomId(length)`
(src/src/ci-build-id-generator.js.js lines 13-45).  `rand i` models
`Math.floor(Math.random() * 26)` at loop index `i`, always in `[0, 26)`
because `Math.random()` is in `[0, 1)`. -/
def generateRandomId (rand : Nat → Fin 26) (lengthArg : JsLengthArg) : Except String String :=
  match lengthArg with
  | .nonNum ty => .error ("Random ID length must be a number, got " ++ ty)
  | .nonIntNum => .error "Random ID length must be an integer"
  | .intNum n =>
      if n < 6 ∨ 10 < n then
        .error ("Random ID length must be between 6 and 10 characters, got " ++ toString n)
      else
        let result := String.mk ((List.range n.toNat).map fun i =>
          idAlphabet.get (Fin.cast (by decide) (rand i)))
        if validateIdFormat result then .ok result
        else .error ("Generated ID failed validation: " ++ result)

/-! Lemmas about association-list lookup and the spread merge. -/

theorem lookupKey_append_of_some {l₁ : List (String × JSValue)} {k : String} {v : JSValue}
    (l₂ : List (String × JSValue)) (h : lookupKey l₁ k = some v) :
    lookupKey (l₁ ++ l₂) k = some v := by
  induction l₁ with
  | nil => simp [lookupKey] at h
  | cons p t ih =>
      obtain ⟨k', v'⟩ := p
      by_cases hk : k' = k
      · simpa [lookupKey, hk] using h
      · simp only [lookupKey, if_neg hk] at h
        simpa [lookupKey, hk] using ih h

theorem lookupKey_append_of_none {l₁ : List (String × JSValue)} {k : String}
    (l₂ : List (String × JSValue)) (h : lookupKey l₁ k = none) :
    lookupKey (l₁ ++ l₂) k = lookupKey l₂ k := by
  induction l₁ with
  | nil => simp [lookupKey]
  | cons p t ih =>
      obtain ⟨k', v'⟩ := p
      by_cases hk : k' = k
      · simp [lookupKey, hk] at h
      · simp only [lookupKey, if_neg hk] at h
        simpa [lookupKey, hk] using ih h

theorem lookupKey_overrideWith (ovr base : List (String × JSValue)) (k : String) :
    lookupKey (overrideWith ovr base) k =
      (lookupKey base k).map fun w => (lookupKey ovr k).getD w := by
  induction base with
  | nil => simp [overrideWith, lookupKey]
  | cons p t ih =>
      obtain ⟨k', v'⟩ := p
      by_cases hk : k' = k
      · subst hk
        simp [overrideWith, lookupKey]
      · simpa [overrideWith, lookupKey, hk] using ih

theorem lookupKey_filter_isNone (base ovr : List (String × JSValue)) (k : String) :
    lookupKey (ovr.filter fun p => (lookupKey base p.1).isNone) k =
      match lookupKey base k with
      | none => lookupKey ovr k
      | some _ => none := by
  induction ovr with
  | nil => cases hb : lookupKey base k <;> simp [lookupKey]
  | cons p t ih =>
      obtain ⟨k', v'⟩ := p
      by_cases hk : k' = k
      · subst hk
        cases hb : lookupKey base k' with
        | none =>
            rw [hb] at ih
            simp [List.filter_cons, hb, lookupKey]
        | some w =>
            rw [hb] at ih
            simp only [List.filter_cons, hb]
            simpa using ih
      · cases hb : lookupKey base k' <;>
          cases hbk : lookupKey base k <;>
            simp_all [List.filter, lookupKey, hk, Option.isNone]

theorem lookupKey_spreadMerge_of_some {ovr : List (String × JSValue)} {k : String}
    {v : JSValue} (base : List (String × JSValue)) (h : lookupKey ovr k = some v) :
    lookupKey (spreadMerge base ovr) k = some v := by
  unfold spreadMerge
  cases hw : lookupKey base k with
  | some w =>
      have hov : lookupKey (overrideWith ovr base) k = some v := by
        rw [lookupKey_overrideWith, hw, Option.map_some', h]
        rfl
      exact lookupKey_append_of_some _ hov
  | none =>
      have hov : lookupKey (overrideWith ovr base) k = none := by
        rw [lookupKey_overrideWith, hw]; rfl
      rw [lookupKey_append_of_none _ hov, lookupKey_filter_isNone, hw, h]

theorem lookupKey_spreadMerge_of_none {ovr : List (String × JSValue)} {k : String}
    (base : List (String × JSValue)) (h : lookupKey ovr k = none) :
    lookupKey (spreadMerge base ovr) k = lookupKey base k := by
  unfold spreadMerge
  cases hw : lookupKey base k with
  | some w =>
      have hov : lookupKey (overrideWith ovr base) k = some w := by
        rw [lookupKey_overrideWith, hw, Option.map_some', h]
        rfl
      rw [lookupKey_append_of_some _ hov]
  | none =>
      have hov : lookupKey (overrideWith ovr base) k = none := by
        rw [lookupKey_overrideWith, hw]; rfl
      rw [lookupKey_append_of_none _ hov, lookupKey_filter_isNone, hw, h]

theorem mergeParameters_ok_eq {base ovr m : List (String × JSValue)}
    (h : mergeParameters (.obj base) (.obj ovr) = .ok (.obj m)) :
    m = spreadMerge base ovr := by
  simp only [mergeParameters] at h
  cases hd : validateParameterObject (.obj base) "default" with
  | error e => rw [hd] at h; exact absurd h (by simp)
  | ok u =>
      cases he : validateParameterObject (.obj ovr) "environment" with
      | error e => rw [hd, he] at h; exact absurd h (by simp)
      | ok u' =>
          rw [hd, he] at h
          have := Except.ok.inj h
          exact (JSValue.obj.inj this).symm

/-- C1: for every base map and present override map, a successful merge
yields a map where every key of the override maps to the override's value
(even a falsy one such as 0, false or the empty string — presence, not
truthiness, decides), every key absent from the override keeps the base's
binding (so override-only keys are included and base-only keys keep their
values), and merging with an absent override returns a value-equal copy of
the base map. -/
theorem mergeParameters_precedence (base ovr m : List (String × JSValue)) :
    (mergeParameters (.obj base) (.obj ovr) = .ok (.obj m) →
      (∀ k v, lookupKey ovr k = some v → lookupKey m k = some v) ∧
      (∀ k, lookupKey ovr k = none → lookupKey m k = lookupKey base k)) ∧
    mergeParameters (.obj base) .null = .ok (.obj base) := by
  constructor
  · intro h
    have hm := mergeParameters_ok_eq h
    subst hm
    exact ⟨fun k v hk => lookupKey_spreadMerge_of_some base hk,
           fun k hk => lookupKey_spreadMerge_of_none base hk⟩
  · rfl

/-- Witness for C1: merging base a ↦ "x" with override a ↦ 0 gives the
falsy override value 0 at key a, and merging the base with an absent
override copies the base. -/
theorem mergeParameters_precedence_witness :
    lookupKey [("a", JSValue.num 0)] "a" = some (JSValue.num 0) ∧
    mergeParameters (JSValue.obj [("a", JSValue.str "x")]) JSValue.null
      = Except.ok (JSValue.obj [("a", JSValue.str "x")]) :=
  ⟨((mergeParameters_precedence [("a", JSValue.str "x")] [("a", JSValue.num 0)]
      [("a", JSValue.num 0)]).1 rfl).1 "a" (JSValue.num 0) rfl,
   (mergeParameters_precedence [("a", JSValue.str "x")] [("a", JSValue.num 0)]
      [("a", JSValue.num 0)]).2⟩

/-- C3 counterexample: with an absent override, merge succeeds on a base
map whose key violates the parameter key rule (the deep validation is
skipped on that path), so merge does not fail on every invalid base map
when the override is absent. -/
theorem mergeParameters_absent_override_counterexample :
    mergeParameters (JSValue.obj [("bad key", JSValue.str "v")]) JSValue.null
      = Except.ok (JSValue.obj [("bad key", JSValue.str "v")]) ∧
    validateParameterObject (JSValue.obj [("bad key", JSValue.str "v")]) "default"
      = Except.error "default parameter name 'bad key' contains invalid characters. Parameter names must start with a letter and contain only alphanumeric characters." :=
  ⟨rfl, rfl⟩

/-- C3 amended: both inputs are deeply validated (key count, key rule,
non-null values) only when the override is a present map, and a
validation failure on either input fails the merge with the wrapped
message; when the override is absent only the is-a-map shape check
applies (a null/array/scalar base is rejected) and merge succeeds on any
base map, valid or not, returning a value-equal copy. -/
theorem mergeParameters_validation_gated (base ovr : List (String × JSValue)) (v w : JSValue) :
    (∀ e, validateParameterObject (.obj base) "default" = .error e →
        mergeParameters (.obj base) (.obj ovr) = .error ("Failed to merge parameters: " ++ e)) ∧
    (∀ u e, validateParameterObject (.obj base) "default" = .ok u →
        validateParameterObject (.obj ovr) "environment" = .error e →
        mergeParameters (.obj base) (.obj ovr) = .error ("Failed to merge parameters: " ++ e)) ∧
    (isPlainObject v = false →
        mergeParameters v w = .error "Default parameters must be a valid object (not an array)") ∧
    mergeParameters (.obj base) .null = .ok (.obj base) := by
  refine ⟨fun e he => ?_, fun u e hu he => ?_, fun hv => ?_, rfl⟩
  · simp only [mergeParameters, he]
  · simp only [mergeParameters, hu, he]
  · cases v <;> simp_all [isPlainObject, mergeParameters]

/-- Witness for C3 (amended): a base with the key Invalid-Name and a
present empty override fails the merge with the wrapped validation
message. -/
theorem mergeParameters_validation_gated_witness :
    mergeParameters (JSValue.obj [("Invalid-Name", JSValue.str "x")]) (JSValue.obj [])
      = Except.error "Failed to merge parameters: default parameter name 'Invalid-Name' contains invalid characters. Parameter names must start with a letter and contain only alphanumeric characters." :=
  (mergeParameters_validation_gated [("Invalid-Name", JSValue.str "x")] []
    JSValue.null JSValue.null).1 _ rfl

/-- C4 (code bug evidence): the orchestrator's tag merge goes through
mergeParameters, so with a present override it enforces the
parameter-kind key rule: the free-form tag key Cost-Center, accepted by
the repository's own validateTagsObject for both maps, is rejected by the
tag merge — yet the same default tags are accepted when the override is
absent, since that path skips validation. -/
theorem runMergeTags_applies_parameter_rules :
    runMergeTags (JSValue.obj [("Cost-Center", JSValue.str "engineering")])
        (JSValue.obj [("Environment", JSValue.str "prod")])
      = Except.error "Failed to merge parameters: default parameter name 'Cost-Center' contains invalid characters. Parameter names must start with a letter and contain only alphanumeric characters." ∧
    validateTagsObject (JSValue.obj [("Cost-Center", JSValue.str "engineering")]) "default"
      = Except.ok () ∧
    validateTagsObject (JSValue.obj [("Environment", JSValue.str "prod")]) "environment"
      = Except.ok () ∧
    runMergeTags (JSValue.obj [("Cost-Center", JSValue.str "engineering")]) JSValue.null
      = Except.ok (JSValue.obj [("Cost-Center", JSValue.str "engineering")]) :=
  ⟨rfl, rfl, rfl, rfl⟩

/-- C5 counterexample: loading default tags with the file absent succeeds
with the empty map rather than failing with a not-found error. -/
theorem readDefaultTags_missing_counterexample :
    readDefaultTags "cfn" FsEntry.missing = Except.ok (JSValue.obj []) := rfl

set_option linter.unusedTactic false in
/-- C5 amended: loading default tags shares the
NotAFile/Empty/InvalidSyntax/NotAnObject failures with loading default
parameters and performs no required-field check (the empty object is a
valid document), but on an absent file it succeeds with the empty map
where default parameters fail with a not-found error. -/
theorem readDefaultTags_failure_taxonomy (p : String) (hp : ¬p = "") (diag : String) (v : JSValue) :
    readDefaultTags p FsEntry.missing = Except.ok (JSValue.obj []) ∧
    (∃ e, readDefaultParameters p FsEntry.missing = Except.error e) ∧
    (∃ e, readDefaultTags p FsEntry.directory = Except.error e) ∧
    (∃ e, readDefaultParameters p FsEntry.directory = Except.error e) ∧
    (∃ e, readDefaultTags p (FsEntry.jsonFile ParsedContent.empty) = Except.error e) ∧
    (∃ e, readDefaultParameters p (FsEntry.jsonFile ParsedContent.empty) = Except.error e) ∧
    (∃ e, readDefaultTags p (FsEntry.jsonFile (ParsedContent.invalid diag)) = Except.error e) ∧
    (∃ e, readDefaultParameters p (FsEntry.jsonFile (ParsedContent.invalid diag)) = Except.error e) ∧
    (isPlainObject v = false →
      (∃ e, readDefaultTags p (FsEntry.jsonFile (ParsedContent.value v)) = Except.error e) ∧
      (∃ e, readDefaultParameters p (FsEntry.jsonFile (ParsedContent.value v)) = Except.error e)) ∧
    readDefaultTags p (FsEntry.jsonFile (ParsedContent.value (JSValue.obj [])))
      = Except.ok (JSValue.obj []) := by
  refine ⟨?_, ?_, ?_, ?_, ?_, ?_, ?_, ?_, fun hv => ?_, ?_⟩ <;>
    solve
      | simp [readDefaultTags, readDefaultParameters, if_neg hp]
      | (simp only [readDefaultTags, readDefaultParameters, if_neg hp]
         exact ⟨_, rfl⟩)
      | (cases v <;> simp_all [isPlainObject] <;>
          (constructor <;>
            · simp only [readDefaultTags, readDefaultParameters, if_neg hp]
              try exact ⟨_, rfl⟩))

/-- Witness for C5 (amended): at folder cfn, an absent tags file yields
the empty map. -/
theorem readDefaultTags_failure_taxonomy_witness :
    readDefaultTags "cfn" FsEntry.missing = Except.ok (JSValue.obj []) :=
  (readDefaultTags_failure_taxonomy "cfn" (by decide) "x" (JSValue.arr [])).1

/-! Lemmas about the identifier resolver. -/

theorem isStackNameChar_not_ws {c : Char} (h : isStackNameChar c = true) :
    isJsWhitespace c = false := by
  by_contra hws
  rw [Bool.not_eq_false] at hws
  simp only [isJsWhitespace, decide_eq_true_eq] at hws
  rcases hws with rfl | rfl | rfl | rfl <;> exact absurd h (by decide)

theorem all_data_of_validNameTest {s : String} (h : validNameTest s = true) :
    ∀ c ∈ s.data, isStackNameChar c = true := by
  unfold validNameTest at h
  rw [Bool.and_eq_true] at h
  exact fun c hc => List.all_eq_true.mp h.2 c hc

theorem ne_empty_of_validNameTest {s : String} (h : validNameTest s = true) :
    ¬ s = "" := by
  unfold validNameTest at h
  rw [Bool.and_eq_true] at h
  intro he
  subst he
  exact absurd h.1 (by decide)

theorem dropWhile_eq_self_of_all {l : List Char} {p : Char → Bool}
    (h : ∀ c ∈ l, p c = false) : l.dropWhile p = l := by
  cases l with
  | nil => rfl
  | cons c t => simp [List.dropWhile_cons, h c (List.mem_cons_self c t)]

theorem jsTrim_eq_self {s : String} (h : ∀ c ∈ s.data, isJsWhitespace c = false) :
    jsTrim s = s := by
  unfold jsTrim
  rw [dropWhile_eq_self_of_all h,
    dropWhile_eq_self_of_all (fun c hc => h c (List.mem_reverse.mp hc)),
    List.reverse_reverse]

theorem jsTrim_eq_self_of_validNameTest {s : String} (h : validNameTest s = true) :
    jsTrim s = s :=
  jsTrim_eq_self fun c hc => isStackNameChar_not_ws (all_data_of_validNameTest h c hc)

theorem generateStackName_deploy (p sp env : String) (g : GitResult)
    (hp : validComponent p) (hsp : validComponent sp) (henv : validComponent env) :
    generateStackName p sp false env g =
      if 128 < (p ++ "-" ++ sp ++ "-" ++ env).length then
        .error ("Generated stack name is too long (" ++
          toString (p ++ "-" ++ sp ++ "-" ++ env).length ++
          " characters). CloudFormation stack names must be 128 characters or less.")
      else .ok (p ++ "-" ++ sp ++ "-" ++ env) := by
  obtain ⟨hpv, hpl⟩ := hp
  obtain ⟨hspv, hspl⟩ := hsp
  obtain ⟨henvv, henvl⟩ := henv
  simp only [generateStackName, jsTrim_eq_self_of_validNameTest hpv,
    jsTrim_eq_self_of_validNameTest hspv, jsTrim_eq_self_of_validNameTest henvv,
    hpv, hspv, henvv]
  rw [if_neg (ne_empty_of_validNameTest hpv), if_neg (ne_empty_of_validNameTest hspv),
    if_neg (by simp : ¬(true = false)), if_neg (by simp : ¬(true = false)),
    if_neg (by omega : ¬(50 < p.length)), if_neg (by omega : ¬(50 < sp.length)),
    if_neg (ne_empty_of_validNameTest henvv), if_neg (by simp : ¬(true = false)),
    if_neg (by omega : ¬(50 < env.length))]

theorem generateStackName_build (p sp env : String) (g : GitResult)
    (hp : validComponent p) (hsp : validComponent sp) :
    generateStackName p sp true env g =
      match
        (match getCurrentBranchName g with
        | .error e => .error e
        | .ok branchName =>
            match sanitizeBranchName branchName with
            | .error e => .error e
            | .ok sanitized =>
                if sanitized = "" then
                  .error "Branch name resulted in empty string after sanitization. Please use a branch name with alphanumeric characters."
                else .ok (p ++ "-" ++ sp ++ "-" ++ sanitized) : Except String String)
      with
      | .error e => .error e
      | .ok stackName =>
          if 128 < stackName.length then
            .error ("Generated stack name is too long (" ++ toString stackName.length ++
              " characters). CloudFormation stack names must be 128 characters or less.")
          else .ok stackName := by
  obtain ⟨hpv, hpl⟩ := hp
  obtain ⟨hspv, hspl⟩ := hsp
  simp only [generateStackName, jsTrim_eq_self_of_validNameTest hpv,
    jsTrim_eq_self_of_validNameTest hspv, hpv, hspv]
  rw [if_neg (ne_empty_of_validNameTest hpv), if_neg (ne_empty_of_validNameTest hspv),
    if_neg (by simp : ¬(true = false)), if_neg (by simp : ¬(true = false)),
    if_neg (by omega : ¬(50 < p.length)), if_neg (by omega : ¬(50 < sp.length))]

theorem getCurrentBranchName_ok_ne_empty {g : GitResult} {t : String}
    (h : getCurrentBranchName g = .ok t) : ¬ t = "" := by
  cases g with
  | output s =>
      simp only [getCurrentBranchName] at h
      split_ifs at h with h1 h2
      exact fun he => h1 (Or.inl ((Except.ok.inj h).trans he))
  | cmdNotFound => simp [getCurrentBranchName] at h
  | timedOut => simp [getCurrentBranchName] at h
  | exitStatus128 => simp [getCurrentBranchName] at h
  | exitStatus129 => simp [getCurrentBranchName] at h
  | otherFailure m => simp [getCurrentBranchName] at h

/-- C6: in build mode, name resolution fails whenever the external branch
lookup errors (tool missing, timeout, not-a-repository, tool-too-old,
generic failure), or returns an empty value or the sentinel HEAD; each
such lookup outcome is an error, any lookup error propagates so no
resolved name is produced; and when the looked-up branch name sanitizes
to the empty string, resolution fails with the sanitization-empty error
rather than silently defaulting. -/
theorem generateStackName_buildFailures (p sp env : String) (g : GitResult)
    (hp : validComponent p) (hsp : validComponent sp) :
    (∀ e, getCurrentBranchName g = .error e → generateStackName p sp true env g = .error e) ∧
    (∀ s, jsTrim s = "" ∨ jsTrim s = "HEAD" →
      getCurrentBranchName (GitResult.output s)
        = .error "Unable to determine current branch name. You may be in a detached HEAD state or the repository may not have any commits.") ∧
    (∃ e, getCurrentBranchName GitResult.cmdNotFound = .error e) ∧
    (∃ e, getCurrentBranchName GitResult.timedOut = .error e) ∧
    (∃ e, getCurrentBranchName GitResult.exitStatus128 = .error e) ∧
    (∃ e, getCurrentBranchName GitResult.exitStatus129 = .error e) ∧
    (∀ m, ∃ e, getCurrentBranchName (GitResult.otherFailure m) = .error e) ∧
    (∀ t, getCurrentBranchName g = .ok t → sanitizeCore t = "" →
      generateStackName p sp true env g
        = .error "Branch name resulted in empty string after sanitization. Please use a branch name with alphanumeric characters.") := by
  refine ⟨fun e he => ?_, fun s hs => ?_, ⟨_, rfl⟩, ⟨_, rfl⟩, ⟨_, rfl⟩, ⟨_, rfl⟩,
    fun m => ⟨_, rfl⟩, fun t hok hse => ?_⟩
  · rw [generateStackName_build p sp env g hp hsp, he]
  · simp only [getCurrentBranchName]
    rw [if_pos hs]
  · have hne : ¬ t = "" := getCurrentBranchName_ok_ne_empty hok
    have hsan : sanitizeBranchName t = .ok (sanitizeCore t) := by
      simp only [sanitizeBranchName, if_neg hne]
    rw [generateStackName_build p sp env g hp hsp]
    simp only [hok, hsan, hse]
    rfl

/-- Witness for C6: with valid components, a lookup returning the
sentinel HEAD fails resolution with the detached-HEAD error. -/
theorem generateStackName_buildFailures_witness :
    generateStackName "myapp" "api" true "" (GitResult.output "HEAD")
      = Except.error "Unable to determine current branch name. You may be in a detached HEAD state or the repository may not have any commits." :=
  (generateStackName_buildFailures "myapp" "api" "" (GitResult.output "HEAD")
      ⟨by decide, by decide⟩ ⟨by decide, by decide⟩).1 _ rfl

/-- C8: in deployment mode, every combination of valid project, stack
prefix and environment tag whose hyphen-joined composition exceeds 128
characters is rejected with the name-too-long error; the resolver never
returns a truncated name. -/
theorem generateStackName_lengthCap (p sp env : String) (g : GitResult)
    (hp : validComponent p) (hsp : validComponent sp) (henv : validComponent env)
    (hlen : 128 < (p ++ "-" ++ sp ++ "-" ++ env).length) :
    generateStackName p sp false env g =
      .error ("Generated stack name is too long (" ++
        toString (p ++ "-" ++ sp ++ "-" ++ env).length ++
        " characters). CloudFormation stack names must be 128 characters or less.") := by
  rw [generateStackName_deploy p sp env g hp hsp henv, if_pos hlen]

/-- Witness for C8: three valid 50-character components compose to 152
characters and are rejected. -/
theorem generateStackName_lengthCap_witness :
    generateStackName (String.mk (List.replicate 50 'a')) (String.mk (List.replicate 50 'b'))
        false (String.mk (List.replicate 50 'c')) (GitResult.output "main")
      = Except.error ("Generated stack name is too long (" ++
          toString (String.mk (List.replicate 50 'a') ++ "-" ++ String.mk (List.replicate 50 'b')
            ++ "-" ++ String.mk (List.replicate 50 'c')).length ++
          " characters). CloudFormation stack names must be 128 characters or less.") :=
  generateStackName_lengthCap _ _ _ _ ⟨by decide, by decide⟩ ⟨by decide, by decide⟩
    ⟨by decide, by decide⟩ (by decide)

/-- C9 counterexample: three components that are each valid (matching
the charset rule, at most 50 characters) compose to 152 characters, and
the resolver then produces an error, not the literal composition, so the
claim needs the composition bounded by 128. -/
theorem generateStackName_deployment_counterexample :
    validNameTest (String.mk (List.replicate 50 'a')) = true ∧
    (String.mk (List.replicate 50 'a')).length ≤ 50 ∧
    validNameTest (String.mk (List.replicate 50 'b')) = true ∧
    (String.mk (List.replicate 50 'b')).length ≤ 50 ∧
    validNameTest (String.mk (List.replicate 50 'c')) = true ∧
    (String.mk (List.replicate 50 'c')).length ≤ 50 ∧
    generateStackName (String.mk (List.replicate 50 'a')) (String.mk (List.replicate 50 'b'))
        false (String.mk (List.replicate 50 'c')) (GitResult.output "main")
      = Except.error "Generated stack name is too long (152 characters). CloudFormation stack names must be 128 characters or less." := by
  exact ⟨by decide, by decide, by decide, by decide, by decide, by decide, rfl⟩

/-- C9 amended: in deployment mode, for every valid project, stack
prefix and environment tag whose hyphen-joined composition is at most
128 characters, the resolved name is the literal composition with no
sanitization applied. -/
theorem generateStackName_deployment (p sp env : String) (g : GitResult)
    (hp : validComponent p) (hsp : validComponent sp) (henv : validComponent env)
    (hlen : (p ++ "-" ++ sp ++ "-" ++ env).length ≤ 128) :
    generateStackName p sp false env g = .ok (p ++ "-" ++ sp ++ "-" ++ env) := by
  rw [generateStackName_deploy p sp env g hp hsp henv, if_neg (by omega)]

/-- Witness for C9 (amended): project myapp, prefix api, environment
sb-prod-us-east-1 resolve to myapp-api-sb-prod-us-east-1. -/
theorem generateStackName_deployment_witness :
    generateStackName "myapp" "api" false "sb-prod-us-east-1" (GitResult.output "main")
      = Except.ok "myapp-api-sb-prod-us-east-1" :=
  generateStackName_deployment "myapp" "api" "sb-prod-us-east-1" (GitResult.output "main")
    ⟨by decide, by decide⟩ ⟨by decide, by decide⟩ ⟨by decide, by decide⟩ (by decide)

/-- C10: every lookup output whose trimmed branch name is longer than
100 characters makes getCurrentBranchName fail with the
branch-name-too-long error, and build-mode resolution with valid
components fails the same way regardless of what the composed name would
have been. -/
theorem getCurrentBranchName_lengthLimit (s p sp env : String)
    (hbn : 100 < (jsTrim s).length) (hp : validComponent p) (hsp : validComponent sp) :
    getCurrentBranchName (GitResult.output s)
      = .error ("Branch name is too long (" ++ toString (jsTrim s).length ++
          " characters). Maximum supported length is 100 characters.") ∧
    generateStackName p sp true env (GitResult.output s)
      = .error ("Branch name is too long (" ++ toString (jsTrim s).length ++
          " characters). Maximum supported length is 100 characters.") := by
  have h1 : ¬(jsTrim s = "" ∨ jsTrim s = "HEAD") := by
    rintro (he | he) <;> rw [he] at hbn <;> exact absurd hbn (by decide)
  have hmain : getCurrentBranchName (GitResult.output s)
      = .error ("Branch name is too long (" ++ toString (jsTrim s).length ++
          " characters). Maximum supported length is 100 characters.") := by
    simp only [getCurrentBranchName]
    rw [if_neg h1, if_pos hbn]
  refine ⟨hmain, ?_⟩
  rw [generateStackName_build p sp env (GitResult.output s) hp hsp, hmain]

/-- Witness for C10: a 101-character branch name (one letter and 100
slashes, which would sanitize to the single letter a and compose well
under the 128 cap) still fails resolution with the
branch-name-too-long error. -/
theorem getCurrentBranchName_lengthLimit_witness :
    generateStackName "p1" "q1" true "" (GitResult.output ("a" ++ String.mk (List.replicate 100 '/')))
      = Except.error ("Branch name is too long (" ++
          toString (jsTrim ("a" ++ String.mk (List.replicate 100 '/'))).length ++
          " characters). Maximum supported length is 100 characters.") :=
  (getCurrentBranchName_lengthLimit ("a" ++ String.mk (List.replicate 100 '/')) "p1" "q1" ""
    (by decide) ⟨by decide, by decide⟩ ⟨by decide, by decide⟩).2

/-- C7: for every random stream and every integer n in [6,10], the
generator returns a string of exactly n lowercase ASCII letters; every
integer length outside [6,10] (in particular 5 and 11), every
non-integer number, and every non-number argument is rejected with an
invalid-length error and no clamping is performed. -/
theorem generateRandomId_spec (rand : Nat → Fin 26) (ty : String) (n : Int)
    (h6 : 6 ≤ n) (h10 : n ≤ 10) :
    (∃ s, generateRandomId rand (.intNum n) = .ok s ∧ s.length = n.toNat ∧
      (∀ c ∈ s.data, 97 ≤ c.toNat ∧ c.toNat ≤ 122)) ∧
    (∀ m : Int, m < 6 ∨ 10 < m → ∃ e, generateRandomId rand (.intNum m) = .error e) ∧
    (∃ e, generateRandomId rand JsLengthArg.nonIntNum = .error e) ∧
    (∃ e, generateRandomId rand (JsLengthArg.nonNum ty) = .error e) := by
  refine ⟨?_, fun m hm => ?_, ⟨_, rfl⟩, ⟨_, rfl⟩⟩
  · set chars := (List.range n.toNat).map
      (fun i => idAlphabet.get (Fin.cast (by decide) (rand i))) with hchars_def
    have hchars : ∀ c ∈ chars, 97 ≤ c.toNat ∧ c.toNat ≤ 122 := by
      intro c hc
      rw [hchars_def, List.mem_map] at hc
      obtain ⟨i, -, rfl⟩ := hc
      have hall : ∀ c ∈ idAlphabet, 97 ≤ c.toNat ∧ c.toNat ≤ 122 := by decide
      exact hall _ (List.get_mem idAlphabet _ _)
    have hlen : (String.mk chars).length = n.toNat := by
      simp [String.length, hchars_def]
    have hval : validateIdFormat (String.mk chars) = true := by
      unfold validateIdFormat
      rw [if_neg (by rw [hlen]; omega)]
      rw [Bool.and_eq_true]
      constructor
      · exact List.all_eq_true.mpr fun c hc => decide_eq_true (hchars c hc)
      · rw [Bool.not_eq_true', ← Bool.not_eq_true]
        intro hemp
        rw [String.isEmpty_iff] at hemp
        rw [hemp] at hlen
        have : (0 : Nat) = n.toNat := hlen
        omega
    refine ⟨String.mk chars, ?_, hlen, hchars⟩
    simp only [generateRandomId]
    rw [if_neg (by omega), ← hchars_def, if_pos hval]
  · simp only [generateRandomId]
    rw [if_pos hm]
    exact ⟨_, rfl⟩

/-- Witness for C7: with a constant random stream, generate(8) yields
the eight-letter string aaaaaaaa, while generate(5) and generate(11)
fail. -/
theorem generateRandomId_spec_witness :
    generateRandomId (fun _ => Fin.mk 0 (by decide)) (JsLengthArg.intNum 8)
      = Except.ok "aaaaaaaa" ∧
    (∃ e, generateRandomId (fun _ => Fin.mk 0 (by decide)) (JsLengthArg.intNum 5)
      = Except.error e) ∧
    (∃ e, generateRandomId (fun _ => Fin.mk 0 (by decide)) (JsLengthArg.intNum 11)
      = Except.error e) := by
  refine ⟨rfl, ?_, ?_⟩
  · exact (generateRandomId_spec (fun _ => Fin.mk 0 (by decide)) "object" 8
      (by decide) (by decide)).2.1 5 (by decide)
  · exact (generateRandomId_spec (fun _ => Fin.mk 0 (by decide)) "object" 8
      (by decide) (by decide)).2.1 11 (by decide)

/-! Lemmas about the sanitization algorithm. -/

theorem toNat_ofNat_small {n : Nat} (h : n < 55296) : (Char.ofNat n).toNat = n := by
  have hv : n.isValidChar := Or.inl h
  rw [Char.ofNat, dif_pos hv]
  simp [Char.ofNatAux, Char.toNat, UInt32.ofNat']
  simp [UInt32.toNat, BitVec.toNat_ofNatLt]

theorem toLower_eq_self_of_not_upper {c : Char} (h : ¬(65 ≤ c.toNat ∧ c.toNat ≤ 90)) :
    Char.toLower c = c := by
  unfold Char.toLower
  rw [if_neg h]

theorem toLower_toNat_of_upper {c : Char} (h1 : 65 ≤ c.toNat) (h2 : c.toNat ≤ 90) :
    (Char.toLower c).toNat = c.toNat + 32 := by
  unfold Char.toLower
  rw [if_pos ⟨h1, h2⟩]
  exact toNat_ofNat_small (by omega)

theorem isSanitizedChar_toLower {c : Char} (h : isStackNameChar c = true) :
    isSanitizedChar (Char.toLower c) = true := by
  simp only [isStackNameChar, isAsciiLetter, isAsciiDigit, Bool.or_eq_true,
    decide_eq_true_eq] at h
  rcases h with ((⟨h1, h2⟩ | ⟨h1, h2⟩) | ⟨h1, h2⟩) | hh
  · have hl := toLower_toNat_of_upper h1 h2
    simp only [isSanitizedChar, decide_eq_true_eq]
    left
    omega
  · rw [toLower_eq_self_of_not_upper (by omega)]
    simp only [isSanitizedChar, decide_eq_true_eq]
    left
    exact ⟨h1, h2⟩
  · rw [toLower_eq_self_of_not_upper (by omega)]
    simp only [isSanitizedChar, decide_eq_true_eq]
    right
    left
    exact ⟨h1, h2⟩
  · subst hh
    decide

theorem toLower_eq_self_of_sanitized {c : Char} (h : isSanitizedChar c = true) :
    Char.toLower c = c := by
  simp only [isSanitizedChar, decide_eq_true_eq] at h
  rcases h with ⟨h1, h2⟩ | ⟨h1, h2⟩ | hh
  · exact toLower_eq_self_of_not_upper (by omega)
  · exact toLower_eq_self_of_not_upper (by omega)
  · subst hh
    decide

theorem toLower_hyphen_iff {c : Char} : Char.toLower c = '-' ↔ c = '-' := by
  constructor
  · intro h
    by_cases hu : 65 ≤ c.toNat ∧ c.toNat ≤ 90
    · exfalso
      have h2 := toLower_toNat_of_upper hu.1 hu.2
      rw [h] at h2
      have h45 : ('-').toNat = 45 := rfl
      rw [h45] at h2
      omega
    · rw [toLower_eq_self_of_not_upper hu] at h
      exact h
  · intro h
    subst h
    decide

theorem stack_of_sanitized {c : Char} (h : isSanitizedChar c = true) :
    isStackNameChar c = true := by
  simp only [isSanitizedChar, decide_eq_true_eq] at h
  simp only [isStackNameChar, isAsciiLetter, isAsciiDigit, Bool.or_eq_true,
    decide_eq_true_eq]
  rcases h with h | h | h
  · exact Or.inl (Or.inl (Or.inr h))
  · exact Or.inl (Or.inr h)
  · exact Or.inr h

theorem replaceInvalidChars_all_stack (l : List Char) :
    ∀ c ∈ replaceInvalidChars l, isStackNameChar c = true := by
  intro c hc
  rw [replaceInvalidChars, List.mem_map] at hc
  obtain ⟨a, -, rfl⟩ := hc
  by_cases ha : isStackNameChar a = true
  · rw [if_pos ha]
    exact ha
  · rw [if_neg ha]
    decide

theorem replaceInvalidChars_eq_self {l : List Char}
    (h : ∀ c ∈ l, isStackNameChar c = true) : replaceInvalidChars l = l := by
  rw [replaceInvalidChars]
  conv_rhs => rw [← List.map_id l]
  exact List.map_congr_left fun a ha => by rw [if_pos (h a ha)]; rfl

theorem collapseHyphens_cons_head (t : List Char) : ∀ x,
    ∃ r, collapseHyphens (x :: t) = x :: r := by
  induction t with
  | nil => exact fun x => ⟨[], rfl⟩
  | cons y t' ih =>
      intro x
      by_cases hxy : x = '-' ∧ y = '-'
      · obtain ⟨r, hr⟩ := ih y
        simp only [collapseHyphens, if_pos hxy]
        exact ⟨r, by rw [hr, hxy.1, hxy.2]⟩
      · simp only [collapseHyphens, if_neg hxy]
        exact ⟨_, rfl⟩

theorem collapseHyphens_noDH : ∀ l, noDoubleHyphen (collapseHyphens l) = true
  | [] => rfl
  | [_] => rfl
  | a :: b :: t => by
      by_cases hab : a = '-' ∧ b = '-'
      · simp only [collapseHyphens, if_pos hab]
        exact collapseHyphens_noDH (b :: t)
      · simp only [collapseHyphens, if_neg hab]
        obtain ⟨r, hr⟩ := collapseHyphens_cons_head t b
        rw [hr]
        simp only [noDoubleHyphen, Bool.and_eq_true]
        refine ⟨by simp only [Bool.not_eq_true', decide_eq_false_iff_not]; exact hab, ?_⟩
        rw [← hr]
        exact collapseHyphens_noDH (b :: t)

theorem collapseHyphens_eq_self : ∀ {l}, noDoubleHyphen l = true → collapseHyphens l = l
  | [], _ => rfl
  | [_], _ => rfl
  | a :: b :: t, h => by
      simp only [noDoubleHyphen, Bool.and_eq_true] at h
      obtain ⟨h1, h2⟩ := h
      have hab : ¬(a = '-' ∧ b = '-') := by
        simp only [Bool.not_eq_true', decide_eq_false_iff_not] at h1
        exact h1
      simp only [collapseHyphens, if_neg hab]
      rw [collapseHyphens_eq_self h2]

theorem collapseHyphens_subset : ∀ l, ∀ c ∈ collapseHyphens l, c ∈ l
  | [] => by simp [collapseHyphens]
  | [a] => by simp [collapseHyphens]
  | a :: b :: t => by
      intro c hc
      by_cases hab : a = '-' ∧ b = '-'
      · simp only [collapseHyphens, if_pos hab] at hc
        exact List.mem_cons_of_mem a (collapseHyphens_subset (b :: t) c hc)
      · simp only [collapseHyphens, if_neg hab] at hc
        rcases List.mem_cons.mp hc with rfl | hc'
        · exact List.mem_cons_self _ _
        · exact List.mem_cons_of_mem a (collapseHyphens_subset (b :: t) c hc')

theorem noDoubleHyphen_tail {a : Char} {t : List Char}
    (h : noDoubleHyphen (a :: t) = true) : noDoubleHyphen t = true := by
  cases t with
  | nil => rfl
  | cons b t' =>
      simp only [noDoubleHyphen, Bool.and_eq_true] at h
      exact h.2

theorem noDoubleHyphen_dropWhile (p : Char → Bool) :
    ∀ l, noDoubleHyphen l = true → noDoubleHyphen (l.dropWhile p) = true
  | [], h => h
  | a :: t, h => by
      rw [List.dropWhile_cons]
      by_cases hp : p a = true
      · rw [if_pos hp]
        exact noDoubleHyphen_dropWhile p t (noDoubleHyphen_tail h)
      · rw [if_neg hp]
        exact h

theorem dropTrailingHyphens_head (t : List Char) (y : Char) :
    dropTrailingHyphens (y :: t) = [] ∨ ∃ r, dropTrailingHyphens (y :: t) = y :: r := by
  simp only [dropTrailingHyphens]
  cases h : dropTrailingHyphens t with
  | nil =>
      by_cases hy : y = '-'
      · rw [if_pos hy]
        exact Or.inl rfl
      · rw [if_neg hy]
        exact Or.inr ⟨[], rfl⟩
  | cons c r => exact Or.inr ⟨_, rfl⟩

theorem dropTrailingHyphens_noDH : ∀ l, noDoubleHyphen l = true →
    noDoubleHyphen (dropTrailingHyphens l) = true
  | [], h => h
  | c :: t, h => by
      simp only [dropTrailingHyphens]
      cases hdt : dropTrailingHyphens t with
      | nil =>
          by_cases hc : c = '-'
          · rw [if_pos hc]
            rfl
          · rw [if_neg hc]
            rfl
      | cons d r =>
          cases t with
          | nil => exact absurd hdt (by simp [dropTrailingHyphens])
          | cons y t' =>
              rcases dropTrailingHyphens_head t' y with hnil | ⟨r', hr'⟩
              · rw [hnil] at hdt
                exact absurd hdt (by simp)
              · rw [hr'] at hdt
                obtain ⟨hd, -⟩ := List.cons.inj hdt
                simp only [noDoubleHyphen, Bool.and_eq_true]
                constructor
                · simp only [noDoubleHyphen, Bool.and_eq_true] at h
                  rw [← hd]
                  exact h.1
                · rw [← hdt, ← hr']
                  exact dropTrailingHyphens_noDH (y :: t') (noDoubleHyphen_tail h)

theorem dropTrailingHyphens_subset : ∀ l, ∀ c ∈ dropTrailingHyphens l, c ∈ l
  | [] => by simp [dropTrailingHyphens]
  | a :: t => by
      intro c hc
      simp only [dropTrailingHyphens] at hc
      cases hdt : dropTrailingHyphens t with
      | nil =>
          rw [hdt] at hc
          by_cases ha : a = '-'
          · rw [if_pos ha] at hc
            simp at hc
          · rw [if_neg ha] at hc
            rw [List.mem_singleton.mp hc]
            exact List.mem_cons_self _ _
      | cons d r =>
          rw [hdt] at hc
          rcases List.mem_cons.mp hc with rfl | hc'
          · exact List.mem_cons_self _ _
          · refine List.mem_cons_of_mem a (dropTrailingHyphens_subset t c ?_)
            rw [hdt]
            exact hc'

theorem dropTrailingHyphens_getLast : ∀ l : List Char,
    dropTrailingHyphens l = [] ∨ (dropTrailingHyphens l).getLast? ≠ some '-'
  | [] => Or.inl rfl
  | c :: t => by
      simp only [dropTrailingHyphens]
      cases hdt : dropTrailingHyphens t with
      | nil =>
          by_cases hc : c = '-'
          · rw [if_pos hc]
            exact Or.inl rfl
          · rw [if_neg hc]
            right
            simp [hc]
      | cons d r =>
          right
          rcases dropTrailingHyphens_getLast t with hnil | hlast
          · rw [hnil] at hdt
            exact absurd hdt (by simp)
          · rw [List.getLast?_cons_cons]
            rw [hdt] at hlast
            exact hlast

theorem dropTrailingHyphens_eq_self : ∀ {l : List Char},
    l.getLast? ≠ some '-' → dropTrailingHyphens l = l
  | [], _ => rfl
  | c :: t, h => by
      simp only [dropTrailingHyphens]
      cases t with
      | nil =>
          have hc : ¬ c = '-' := by
            intro hc
            exact h (by rw [hc]; rfl)
          rw [if_neg hc]
          rfl
      | cons y t' =>
          have hlast : (y :: t').getLast? ≠ some '-' := by
            rw [← List.getLast?_cons_cons (a := c)]
            exact h
          rw [dropTrailingHyphens_eq_self hlast]

theorem dropWhile_hyphen_eq_self {l : List Char} (h : l.head? ≠ some '-') :
    (l.dropWhile fun c => decide (c = '-')) = l := by
  cases l with
  | nil => rfl
  | cons a t =>
      rw [List.dropWhile_cons, if_neg]
      simp only [decide_eq_true_eq]
      intro ha
      exact h (by rw [ha]; rfl)

theorem lowerChars_all_sanitized {l : List Char}
    (h : ∀ c ∈ l, isStackNameChar c = true) :
    ∀ c ∈ lowerChars l, isSanitizedChar c = true := by
  intro c hc
  rw [lowerChars, List.mem_map] at hc
  obtain ⟨a, ha, rfl⟩ := hc
  exact isSanitizedChar_toLower (h a ha)

theorem lowerChars_eq_self {l : List Char}
    (h : ∀ c ∈ l, isSanitizedChar c = true) : lowerChars l = l := by
  rw [lowerChars]
  conv_rhs => rw [← List.map_id l]
  exact List.map_congr_left fun a ha => toLower_eq_self_of_sanitized (h a ha)

theorem noDoubleHyphen_lowerChars : ∀ l, noDoubleHyphen l = true →
    noDoubleHyphen (lowerChars l) = true
  | [], h => h
  | [_], _ => rfl
  | a :: b :: t, h => by
      simp only [noDoubleHyphen, Bool.and_eq_true] at h
      obtain ⟨h1, h2⟩ := h
      have h2' := noDoubleHyphen_lowerChars (b :: t) h2
      simp only [lowerChars, List.map_cons] at h2' ⊢
      simp only [noDoubleHyphen, Bool.and_eq_true]
      refine ⟨?_, h2'⟩
      rw [Bool.not_eq_true', decide_eq_false_iff_not]
      rw [Bool.not_eq_true', decide_eq_false_iff_not] at h1
      rintro ⟨ha, hb⟩
      exact h1 ⟨toLower_hyphen_iff.mp ha, toLower_hyphen_iff.mp hb⟩

theorem sanitizeCore_props (s : String) :
    (∀ c ∈ (sanitizeCore s).data, isSanitizedChar c = true) ∧
    noDoubleHyphen (sanitizeCore s).data = true ∧
    (sanitizeCore s).data.head? ≠ some '-' ∧
    (sanitizeCore s).data.getLast? ≠ some '-' := by
  have hdata : (sanitizeCore s).data =
      lowerChars (dropTrailingHyphens
        ((collapseHyphens (replaceInvalidChars s.data)).dropWhile
          fun c => decide (c = '-'))) := rfl
  set l1 := collapseHyphens (replaceInvalidChars s.data) with hl1
  set l2 := l1.dropWhile (fun c => decide (c = '-')) with hl2
  set l3 := dropTrailingHyphens l2 with hl3
  have hstack3 : ∀ c ∈ l3, isStackNameChar c = true := by
    intro c hc
    have hc2 := dropTrailingHyphens_subset l2 c hc
    have hc1 := (List.dropWhile_sublist _).subset hc2
    exact replaceInvalidChars_all_stack _ _ (collapseHyphens_subset _ _ hc1)
  have hnd3 : noDoubleHyphen l3 = true :=
    dropTrailingHyphens_noDH l2
      (noDoubleHyphen_dropWhile _ l1 (collapseHyphens_noDH _))
  have hhead2 : l2.head? ≠ some '-' := by
    intro hh
    have := List.head?_dropWhile_not (fun c => decide (c = '-')) l1
    rw [← hl2, hh] at this
    simp at this
  have hhead3 : l3.head? ≠ some '-' := by
    cases hc2 : l2 with
    | nil => rw [hl3, hc2]; simp [dropTrailingHyphens]
    | cons y t =>
        rcases dropTrailingHyphens_head t y with hnil | ⟨r, hr⟩
        · rw [hl3, hc2, hnil]
          simp
        · rw [hl3, hc2, hr]
          intro hh
          apply hhead2
          rw [hc2]
          simpa using hh
  have hlast3 : l3.getLast? ≠ some '-' := by
    rcases dropTrailingHyphens_getLast l2 with hnil | hlast
    · rw [hl3, hnil]
      simp
    · exact hlast
  refine ⟨?_, ?_, ?_, ?_⟩
  · rw [hdata]
    exact lowerChars_all_sanitized hstack3
  · rw [hdata]
    exact noDoubleHyphen_lowerChars l3 hnd3
  · rw [hdata, lowerChars, List.head?_map]
    cases hh : l3.head? with
    | none => simp
    | some y =>
        simp only [Option.map_some']
        intro hcon
        have : Char.toLower y = '-' := by simpa using hcon
        exact hhead3 (by rw [hh, toLower_hyphen_iff.mp this])
  · rw [hdata, lowerChars, List.getLast?_map]
    cases hh : l3.getLast? with
    | none => simp
    | some y =>
        simp only [Option.map_some']
        intro hcon
        have : Char.toLower y = '-' := by simpa using hcon
        exact hlast3 (by rw [hh, toLower_hyphen_iff.mp this])

theorem sanitizeCore_eq_self {t : String}
    (h1 : ∀ c ∈ t.data, isSanitizedChar c = true)
    (h2 : noDoubleHyphen t.data = true)
    (h3 : t.data.head? ≠ some '-')
    (h4 : t.data.getLast? ≠ some '-') :
    sanitizeCore t = t := by
  unfold sanitizeCore stripEdgeHyphens
  rw [replaceInvalidChars_eq_self (fun c hc => stack_of_sanitized (h1 c hc)),
    collapseHyphens_eq_self h2, dropWhile_hyphen_eq_self h3,
    dropTrailingHyphens_eq_self h4, lowerChars_eq_self h1]

/-- C2 counterexample: sanitize throws on the empty string, so it is not
total on all strings; and since a string of only invalid characters
sanitizes to the empty string, the composition sanitize(sanitize(s)) is
an error at s = "@@@" while sanitize(s) succeeds, refuting unrestricted
idempotence as well. -/
theorem sanitizeBranchName_counterexample :
    sanitizeBranchName "" = Except.error "Branch name cannot be empty" ∧
    sanitizeBranchName "@@@" = Except.ok "" :=
  ⟨rfl, rfl⟩

/-- C2 amended: for every non-empty string, sanitize succeeds and its
output matches the class [a-z0-9-] at every character (possibly the
empty output); and whenever the output is itself non-empty, sanitizing
it again returns it unchanged. -/
theorem sanitizeBranchName_total_idempotent (s : String) (hs : ¬ s = "") :
    ∃ t, sanitizeBranchName s = .ok t ∧ (∀ c ∈ t.data, isSanitizedChar c = true) ∧
      (¬ t = "" → sanitizeBranchName t = .ok t) := by
  obtain ⟨h1, h2, h3, h4⟩ := sanitizeCore_props s
  refine ⟨sanitizeCore s, ?_, h1, fun ht => ?_⟩
  · simp only [sanitizeBranchName, if_neg hs]
  · simp only [sanitizeBranchName, if_neg ht]
    rw [sanitizeCore_eq_self h1 h2 h3 h4]

/-- Witness for C2 (amended): the branch name of the spec's end-to-end
scenario sanitizes to feature-jira-123-fix-user-auth-issue, and that
output is a fixed point of sanitize. -/
theorem sanitizeBranchName_total_idempotent_witness :
    sanitizeBranchName "feature-jira-123-fix-user-auth-issue"
      = Except.ok "feature-jira-123-fix-user-auth-issue" := by
  obtain ⟨t, hok, -, hid⟩ := sanitizeBranchName_total_idempotent
    "feature/JIRA-123_fix-user@auth.issue" (by decide)
  have ht : t = "feature-jira-123-fix-user-auth-issue" := by
    have heq : Except.ok (ε := String) t
        = Except.ok "feature-jira-123-fix-user-auth-issue" := by
      rw [← hok]
      rfl
    exact Except.ok.inj heq
  rw [ht] at hid
  exact hid (by decide)
